import Mathlib

/-!
Shallow embedding of the softr-pinecone-search-api repository (three JS
variants: `src/server.js` — the main variant, `src/unnamed/part_000` — the
earliest variant, `src/unnamed/part_001` — the intermediate variant).

JS numbers that matter here are integers (query-string parsing, timestamps)
and are modelled as `Int`/`Nat`; a `NaN` outcome is the `none` of an
`Option`. Embedding-vector components are modelled as `ℚ` (the claims about
them are structural: component-wise scaling, not float rounding).
JS `undefined` for an absent request parameter is `Option.none`.
-/

/-! ### JS string and number primitives -/

/-- JS `String.prototype.trim()`: strip whitespace from both ends
(modelled on the character list; `Char.isWhitespace` covers the JS
WhiteSpace/LineTerminator productions for the inputs at hand). -/
def jsTrim (s : String) : String :=
  String.mk (((s.toList.dropWhile Char.isWhitespace).reverse.dropWhile
      Char.isWhitespace).reverse)

/-- JS string falsiness: `undefined` and `""` are falsy. -/
def jsFalsyStr (s : Option String) : Bool :=
  match s with
  | none => true
  | some t => t = ""

/-- JS `a || "d"` on an optional string: the default when `a` is falsy. -/
def jsOrStr (s : Option String) (d : String) : String :=
  match s with
  | none => d
  | some t => if t = "" then d else t

/-- The digit prefix of a character list as a number, `none` when empty
(the `NaN` case of `parseInt`). -/
def leadingDigitsNat (cs : List Char) : Option Nat :=
  let ds := cs.takeWhile (fun c => c.isDigit)
  if ds.isEmpty then none
  else some (ds.foldl (fun n c => 10 * n + (c.toNat - 48)) 0)

/-- JS `parseInt(s, 10)`: skip leading whitespace, optional sign, then the
longest digit prefix; `none` models `NaN` (no digits found). -/
def jsParseInt (s : String) : Option Int :=
  let cs := s.toList.dropWhile (fun c => c.isWhitespace)
  match cs with
  | '-' :: rest => (leadingDigitsNat rest).map (fun n => -(n : Int))
  | '+' :: rest => (leadingDigitsNat rest).map (fun n => (n : Int))
  | _ => (leadingDigitsNat cs).map (fun n => (n : Int))

/-- JS `x || 10` on a number that may be `NaN` (`none`) or `0` (both falsy,
including the `-0` that `parseInt("-0")` yields, which is integer 0 here). -/
def jsNumOrTen (p : Option Int) : Int :=
  match p with
  | none => 10
  | some n => if n = 0 then 10 else n

/-- `src/server.js` line 301 (= `part_001` lines 85 and 267):
`Math.min(parseInt(String(req.query.topK ?? "10"), 10) || 10, 100)`. -/
def topK_main (topKParam : Option String) : Int :=
  min (jsNumOrTen (jsParseInt (topKParam.getD "10"))) 100

/-- `src/unnamed/part_000` line 40:
`Math.min(parseInt(req.query.topK || "10", 10), 50)`.
`Math.min` propagates `NaN`, so the result is `none` when the parse fails. -/
def topK_v0 (topKParam : Option String) : Option Int :=
  (jsParseInt (jsOrStr topKParam "10")).map (fun n => min n 50)

/-! ### HTTP responses and the auth middleware -/

/-- A JS value as it appears in a JSON-ish object: string, number, or
`undefined` (the read of an absent property). -/
inductive JVal where
  | str : String → JVal
  | num : ℚ → JVal
  | undefined : JVal
deriving DecidableEq, Repr

/-- JS falsiness of a `JVal`: `""`, `0` and `undefined` are falsy. -/
def JVal.falsy : JVal → Bool
  | .str s => s = ""
  | .num q => q = 0
  | .undefined => true

/-- JS `a || b` on values. -/
def jsOrVal (a b : JVal) : JVal := if a.falsy then b else a

/-- A JS object literal: an ordered list of properties, where a later
binding of a key overwrites an earlier one. -/
abbrev JsObj := List (String × JVal)

/-- Property read on a JS object: the last binding wins; an absent key
reads as `undefined`. -/
def objGet (o : JsObj) (k : String) : JVal :=
  match o.reverse.find? (fun p => p.1 = k) with
  | some p => p.2
  | none => .undefined

/-- Response bodies produced by the handlers. -/
inductive RespBody where
  | okTrue
  | err : String → RespBody
  | errWithDetail : String → String → RespBody
  | items : List JsObj → RespBody
deriving DecidableEq, Repr

/-- An HTTP response: status code and JSON body. -/
structure HttpResp where
  status : Nat
  body : RespBody
deriving DecidableEq, Repr

/-- `checkAuth` middleware, `src/server.js` lines 280-287 (= `part_001`
lines 65-72): 500 when `BUBBLE_SECRET_KEY` is falsy (absent or empty),
401 when the `authorization` header is falsy or differs from
`"Bearer " + BUBBLE_SECRET_KEY`; otherwise `next()` (modelled as `none`). -/
def checkAuth (secret authHeader : Option String) : Option HttpResp :=
  if jsFalsyStr secret then some ⟨500, .err "Server config error"⟩
  else if jsFalsyStr authHeader ∨ authHeader ≠ some ("Bearer " ++ secret.getD "") then
    some ⟨401, .err "Unauthorized"⟩
  else none

/-- A request to `/healthz` in the main variant: `app.use(checkAuth)` is
registered at `src/server.js` line 289 BEFORE the `/healthz` route at line
290 (likewise `part_001` lines 74-75), so the middleware runs first; the
route itself replies `res.json({ ok: true })`. -/
def handleHealthz_main (secret authHeader : Option String) : HttpResp :=
  match checkAuth secret authHeader with
  | some r => r
  | none => ⟨200, .okTrue⟩

/-- A request to `/healthz` in the earliest variant (`part_000` line 34):
no auth middleware exists in that file. -/
def handleHealthz_v0 : HttpResp := ⟨200, .okTrue⟩

/-! ### UTC calendar dates -/

/-- `const DAY_MS = 24 * 60 * 60 * 1000` (`server.js` line 207). -/
def DAY_MS : Int := 24 * 60 * 60 * 1000

/-- `Date.UTC(now.getUTCFullYear(), now.getUTCMonth(), now.getUTCDate())`
(`server.js` line 232): the current instant truncated to UTC midnight.
Unix time has exactly `DAY_MS` milliseconds per UTC day, so this is the
timestamp floored to a multiple of `DAY_MS` (`%` is `Int.emod`, whose
result lies in `[0, DAY_MS)`, matching the floor behaviour of the JS date
decomposition also for pre-1970 instants). -/
def utcMidnight (now : Int) : Int := now - now % DAY_MS

/-- The UTC calendar day an instant falls in, as a day count since
1970-01-01 (floor division, as in the JS `Date` decomposition). -/
def dayIndex (t : Int) : Int := t / DAY_MS

/-- Proleptic-Gregorian civil date `(year, month, day)` of a day count
since 1970-01-01 — the calendar that the JS `getUTCFullYear/Month/Date`
accessors implement (the standard days-to-civil algorithm). -/
def civilFromDays (z0 : Int) : Int × Nat × Nat :=
  let z := z0 + 719468
  let era := z / 146097
  let doe := (z - era * 146097).toNat
  let yoe := (doe - doe / 1460 + doe / 36524 - doe / 146096) / 365
  let doy := doe - (365 * yoe + yoe / 4 - yoe / 100)
  let mp := (5 * doy + 2) / 153
  let d := doy - (153 * mp + 2) / 5 + 1
  let m := if mp < 10 then mp + 3 else mp - 9
  let y := (yoe : Int) + era * 400 + (if m ≤ 2 then 1 else 0)
  (y, m, d)

/-- The `(getUTCFullYear(), getUTCMonth() + 1, getUTCDate())` triple of a
timestamp, as read by `getMultiFormats` (`server.js` lines 211-213). -/
def getUTCDateParts (t : Int) : Int × Nat × Nat := civilFromDays (dayIndex t)

/-- `String(n).padStart(k, '0')`. -/
def padZero (k : Nat) (s : String) : String :=
  String.mk (List.replicate (k - s.length) '0') ++ s

/-- `getMultiFormats` (`server.js` lines 210-225): the five literal string
renderings of one UTC calendar day. -/
def getMultiFormats (t : Int) : List String :=
  let parts := getUTCDateParts t
  let ys := toString parts.1
  let ms := toString parts.2.1
  let ds := toString parts.2.2
  let mm := padZero 2 ms
  let dd := padZero 2 ds
  [ ys ++ "-" ++ mm ++ "-" ++ dd,
    mm ++ "/" ++ dd ++ "/" ++ ys,
    ms ++ "/" ++ ds ++ "/" ++ ys,
    ms ++ "/" ++ dd ++ "/" ++ ys,
    mm ++ "/" ++ ds ++ "/" ++ ys ]

/-- `out.add(v)` on a JS `Set` materialised by `Array.from`: append `v`
unless already present (insertion-ordered de-duplication). -/
def insertDedup (acc : List String) (v : String) : List String :=
  if v ∈ acc then acc else acc ++ [v]

/-- `variations.forEach(v => out.add(v))` (`server.js` line 239); also the
`Set` accumulation of the token-mode label loops. -/
def addAll (acc : List String) (vs : List String) : List String :=
  vs.foldl insertDedup acc

/-- The `while (currentTimestamp <= endTimestamp)` loop of
`getMultiDateRange` (`server.js` lines 235-242): starting at
`endTs - daysBack * DAY_MS` and stepping by exactly `DAY_MS`, it runs once
per remaining day; `k` counts the iterations still to go after the current
one, so the current timestamp is `endTs - k * DAY_MS`. -/
def multiDateRangeGo (endTs : Int) : Nat → List String → List String
  | 0, acc => acc
  | k + 1, acc =>
      multiDateRangeGo endTs k (addAll acc (getMultiFormats (endTs - (k : Int) * DAY_MS)))

/-- `getMultiDateRange(daysBack)` (`server.js` lines 227-244), with the
current instant `now` passed explicitly: iterates the `daysBack + 1` UTC
midnights from `utcMidnight now - daysBack * DAY_MS` up to
`utcMidnight now`, collecting all five formats of each into a `Set`. -/
def getMultiDateRange (now : Int) (daysBack : Nat) : List String :=
  multiDateRangeGo (utcMidnight now) (daysBack + 1) []

/-- `toISOString().slice(0, 10)` of a timestamp (`ymd` helper, `part_001`
line 21): the `YYYY-MM-DD` rendering of the instant's UTC calendar day
(years 1000-9999; `toISOString` pads the year to four digits). -/
def ymd (t : Int) : String :=
  let parts := getUTCDateParts t
  padZero 4 (toString parts.1) ++ "-" ++ padZero 2 (toString parts.2.1) ++ "-" ++
    padZero 2 (toString parts.2.2)

/-- `server.js` lines 335-340: `parseInt(String(req.query.days ?? ""), 10)`
followed by `if (Number.isFinite(daysNum) && daysNum > 0)`; when the gate
passes, the filter value is `getMultiDateRange(daysNum)` (the `Int` model
is arbitrary-precision, so every parsed value is finite). -/
def dateFilter_main (now : Int) (daysParam : Option String) : Option (List String) :=
  match jsParseInt (daysParam.getD "") with
  | some n => if 0 < n then some (getMultiDateRange now n.toNat) else none
  | none => none

/-- `part_000` lines 73-74: the accepted `days` value, `none` unless the
parse is finite and strictly positive. -/
def daysOf_v0 (daysParam : Option String) : Option Int :=
  match jsParseInt (jsOrStr daysParam "") with
  | some n => if 0 < n then some n else none
  | none => none

/-- `cutoffYMD` (`part_000` lines 75-77):
`new Date(Date.now() - days * DAY_MS).toISOString().slice(0, 10)`. -/
def cutoffYMD_v0 (now : Int) (daysParam : Option String) : Option String :=
  (daysOf_v0 daysParam).map (fun n => ymd (now - n * DAY_MS))

/-! ### Content-type filters -/

/-- A metadata predicate on the content-type field. -/
inductive TypePred where
  | inSet : List String → TypePred
  | ninSet : List String → TypePred
deriving DecidableEq, Repr

/-- Evaluation of a content-type predicate on a stored label, per the
index's `$in` / `$nin` semantics (`true` = the item passes). -/
def evalTypePred : TypePred → String → Bool
  | .inSet l, v => v ∈ l
  | .ninSet l, v => v ∉ l

/-- The eleven labels of the `"Essays Only"` branch (`server.js` lines
321-327). -/
def essaysOnlyLabels : List String :=
  [ "Essay", "Essay, Podcast", "Essay, Video",
    "Essay, Podcast, Video", "Essay, Video, Podcast",
    "Podcast, Essay", "Podcast, Essay, Video",
    "Podcast, Video, Essay", "Video, Essay",
    "Video, Essay, Podcast", "Video, Podcast, Essay" ]

/-- The `if / else if` chain on `bubbleType` (`server.js` lines 316-332). -/
def closedTypeFilterCore (bubbleType : String) : Option TypePred :=
  if bubbleType = "All Content Types" then none
  else if bubbleType = "Essays Only" then some (.inSet essaysOnlyLabels)
  else if bubbleType = "Podcasts/Videos Only" then some (.ninSet ["Essay", "Essays"])
  else none

/-- Closed-label mode (`server.js` line 314): the `Type` predicate derived
from `String(req.query.type ?? "").trim()`. -/
def closedTypeFilter (typeParam : Option String) : Option TypePred :=
  closedTypeFilterCore (jsTrim (typeParam.getD ""))

/-- All ways to insert one element into a list (used to enumerate
arrangements). -/
def insertEverywhere (a : String) : List String → List (List String)
  | [] => [[a]]
  | b :: l => (a :: b :: l) :: (insertEverywhere a l).map (fun t => b :: t)

/-- All arrangements (permutations) of a list of labels. -/
def allPerms : List String → List (List String)
  | [] => [[]]
  | a :: l => ((allPerms l).map (insertEverywhere a)).flatten

/-- Modelled from the spec: the label set the spec describes for
"Essays Only" — every arrangement of every subset of
{Essay, Podcast, Video} that contains "Essay", joined with `", "`. -/
def specEssayPermutationLabels : Finset String :=
  (((["Essay", "Podcast", "Video"].sublists.filter (fun l => "Essay" ∈ l)).map
      allPerms).flatten.map (fun l => String.intercalate ", " l)).toFinset

/-- Token mode of the earliest variant, `part_000` lines 45-50:
`rawType.replace(/\//g, ",").split(",").map(s => s.trim().toLowerCase()).filter(Boolean)`. -/
def typeTokens_v0 (typeParam : Option String) : List String :=
  (((jsTrim (jsOrStr typeParam "")).replace "/" ",").splitOn ",").map
      (fun s => (jsTrim s).toLower) |>.filter (fun s => s ≠ "")

/-- `part_000` line 53: `if (typeTokens.includes("all")) typeTokens = []`. -/
def effTokens_v0 (typeParam : Option String) : List String :=
  if "all" ∈ typeTokens_v0 typeParam then [] else typeTokens_v0 typeParam

/-- The labels one token contributes (`part_000` lines 58-68, the
`if / else if` chain inside the `for` loop). -/
def labelsOfToken_v0 (t : String) : List String :=
  if t = "essay" then ["Essay"]
  else if t = "podcast" then ["Podcast", "Podcast, Video"]
  else if t = "video" then ["Video", "Podcast, Video"]
  else []

/-- `allowedTypeLabels` (`part_000` lines 57-68): the `Set` accumulated
over the tokens, in insertion order. -/
def allowedTypeLabels_v0 (typeParam : Option String) : List String :=
  (effTokens_v0 typeParam).foldl (fun acc t => addAll acc (labelsOfToken_v0 t)) []

/-- `finalTypeFilterValues` and the filter attachment (`part_000` lines
69-70 and 83-85): `final_type $in ...` only when the label set is
non-empty. -/
def finalTypeFilter_v0 (typeParam : Option String) : Option (String × List String) :=
  if (allowedTypeLabels_v0 typeParam).isEmpty then none
  else some ("final_type", allowedTypeLabels_v0 typeParam)

/-- Token mode of the intermediate variant, `part_001` lines 98-99: the
whole string is lowercased before splitting. -/
def typeTokens_v1 (typeParam : Option String) : List String :=
  (((jsTrim (typeParam.getD "")).toLower.replace "/" ",").splitOn ",").map
      jsTrim |>.filter (fun s => s ≠ "")

/-- The labels one token contributes in `part_001` (lines 104-112; plural
forms are also recognised there). -/
def labelsOfToken_v1 (t : String) : List String :=
  if t = "essay" ∨ t = "essays" then ["Essay"]
  else if t = "podcast" ∨ t = "podcasts" then ["Podcast", "Podcast, Video"]
  else if t = "video" ∨ t = "videos" then ["Video", "Podcast, Video"]
  else []

/-- The `Set` accumulated over the tokens in `part_001` (lines 102-113). -/
def allowedTypeLabels_v1 (typeParam : Option String) : List String :=
  (typeTokens_v1 typeParam).foldl (fun acc t => addAll acc (labelsOfToken_v1 t)) []

/-- `part_001` lines 101-115: the label set is built only when the token
list is non-empty and lacks `"all"`, and attached as `Type $in ...` only
when it is non-empty. -/
def typeFilter_v1 (typeParam : Option String) : Option (String × List String) :=
  if ¬(typeTokens_v1 typeParam).isEmpty ∧ "all" ∉ typeTokens_v1 typeParam then
    if (allowedTypeLabels_v1 typeParam).isEmpty then none
    else some ("Type", allowedTypeLabels_v1 typeParam)
  else none

/-- A token the `part_000` label chain recognises. -/
def recognized_v0 (t : String) : Bool :=
  t = "essay" ∨ t = "podcast" ∨ t = "video"

/-- A token the `part_001` label chain recognises. -/
def recognized_v1 (t : String) : Bool :=
  t = "essay" ∨ t = "essays" ∨ t = "podcast" ∨ t = "podcasts" ∨
    t = "video" ∨ t = "videos"

/-- A `part_001` token that maps to the combo label `"Podcast, Video"`. -/
def comboToken_v1 (t : String) : Bool :=
  t = "podcast" ∨ t = "podcasts" ∨ t = "video" ∨ t = "videos"

/-! ### The /search pipeline of the main variant -/

/-- A sparse lexical vector as returned by the sparse-embedding provider
(`j.data[0].sparse_values`): index/weight pairs, treated opaquely. -/
abbrev SparseVec := List (Nat × ℚ)

/-- The dense-embedding provider's HTTP reply, as observed by the handler. -/
structure DenseResp where
  ok : Bool
  status : Nat
  embedding : List ℚ
deriving DecidableEq, Repr

/-- The sparse-embedding provider's HTTP reply. -/
structure SparseResp where
  ok : Bool
  status : Nat
  sparse_values : SparseVec
deriving DecidableEq, Repr

/-- One match of the index reply: id, score and the raw metadata object. -/
structure PineMatch where
  id : String
  score : ℚ
  metadata : List (String × JVal)
deriving DecidableEq, Repr

/-- The index provider's HTTP reply; `matchesField := none` models a
response body with no `matches` field (`matches` is a reserved word in
Lean, hence the field name). -/
structure PineResp where
  ok : Bool
  matchesField : Option (List PineMatch)
  detail : String
deriving DecidableEq, Repr

/-- Static configuration of the main variant read from the environment. -/
structure AppConfig where
  enableHybrid : String
  pineconeNamespace : String
deriving DecidableEq, Repr

/-- The request parameters of `/search`. `alpha` is modelled as the value
`parseFloat` yields on a well-formed numeric string — the claims never
exercise a malformed `alpha`; all other parameters are raw strings. -/
structure SearchParams where
  q : Option String
  alpha : Option ℚ
  exact : Option String
  topKParam : Option String
  typeParam : Option String
  daysParam : Option String
deriving Repr

/-- `parseFloat(req.query.alpha ?? "0.8")` (`server.js` line 296). -/
def alphaOf (p : SearchParams) : ℚ := p.alpha.getD (4 / 5)

/-- `getDenseEmbedding` (`server.js` lines 247-256): throws
`OpenAI Error: <status>` on a non-2xx reply, else the embedding. -/
def getDenseEmbedding (r : DenseResp) : Except String (List ℚ) :=
  if r.ok then .ok r.embedding else .error ("OpenAI Error: " ++ toString r.status)

/-- `getSparseEmbedding` (`server.js` lines 259-277): `null` for falsy or
blank text, throws `Pinecone Sparse Error: <status>` on a non-2xx reply,
else `j.data[0].sparse_values`. -/
def getSparseEmbedding (text : String) (r : SparseResp) : Except String (Option SparseVec) :=
  if text = "" ∨ jsTrim text = "" then .ok none
  else if r.ok then .ok (some r.sparse_values)
  else .error ("Pinecone Sparse Error: " ++ toString r.status)

/-- `server.js` lines 307-310: the sparse vector is requested only when
`ENABLE_HYBRID === "true"` and the trimmed `exact` phrase is truthy. -/
def sparseStep (cfg : AppConfig) (exactPhrase : String) (sR : SparseResp) :
    Except String (Option SparseVec) :=
  if cfg.enableHybrid = "true" ∧ exactPhrase ≠ "" then getSparseEmbedding exactPhrase sR
  else .ok none

/-- The metadata filter object of the main variant (`server.js` lines
313-340): at most a `Type` predicate and a `"Date of Publication"` `$in`
list. -/
structure SearchFilter where
  typePred : Option TypePred
  datePred : Option (List String)
deriving DecidableEq, Repr

/-- `Object.keys(filter).length` is zero. -/
def SearchFilter.isEmptyObj (f : SearchFilter) : Bool :=
  f.typePred = none ∧ f.datePred = none

/-- The query payload sent to the index (`server.js` lines 343-350); an
`Option` field is an absent key when `none` (conditional spread). -/
structure QueryBody where
  vector : List ℚ
  topK : Int
  includeMetadata : Bool
  sparse_vector : Option SparseVec
  namespaceField : Option String
  filter : Option SearchFilter
deriving DecidableEq, Repr

/-- `server.js` lines 343-350: the body literal — the dense vector is
scaled by `alpha` exactly when a sparse vector is present, the sparse
vector is attached unscaled, the namespace only when non-empty, the
filter only when it has keys. -/
def buildQueryBody (cfg : AppConfig) (alpha : ℚ) (topK : Int) (dense : List ℚ)
    (sparse : Option SparseVec) (f : SearchFilter) : QueryBody :=
  { vector := match sparse with
      | some _ => dense.map (fun v => v * alpha)
      | none => dense
    topK := topK
    includeMetadata := true
    sparse_vector := sparse
    namespaceField := if cfg.pineconeNamespace = "" then none else some cfg.pineconeNamespace
    filter := if f.isEmptyObj then none else some f }

/-- Steps 2-5 of the `/search` handler (`server.js` lines 304-350), after
the `q` validation: dense embedding, optional sparse embedding, filter
construction, and the query body; a thrown provider error propagates. -/
def searchPrep (cfg : AppConfig) (p : SearchParams) (now : Int) (dR : DenseResp)
    (sR : SparseResp) : Except String QueryBody :=
  match getDenseEmbedding dR with
  | .error e => .error e
  | .ok dense =>
      match sparseStep cfg (jsTrim (p.exact.getD "")) sR with
      | .error e => .error e
      | .ok sparse =>
          .ok (buildQueryBody cfg (alphaOf p) (topK_main p.topKParam) dense sparse
            ⟨closedTypeFilter p.typeParam, dateFilter_main now p.daysParam⟩)

/-- The query body the handler sends to the index; `none` when the request
errors before the index call (`q` missing or a provider threw). -/
def searchQuerySent (cfg : AppConfig) (p : SearchParams) (now : Int) (dR : DenseResp)
    (sR : SparseResp) : Option QueryBody :=
  if jsTrim (p.q.getD "") = "" then none
  else (searchPrep cfg p now dR sR).toOption

/-- The nine normalized aliases computed from the capitalized metadata
fields (`server.js` lines 366-374). -/
def normalizedAliasFields (meta : List (String × JVal)) : JsObj :=
  [ ("title", objGet meta "Title"),
    ("author", objGet meta "Author"),
    ("url", objGet meta "URL"),
    ("publication", objGet meta "Publication"),
    ("type", objGet meta "Type"),
    ("date", objGet meta "Date of Publication"),
    ("snippet", objGet meta "Snippet"),
    ("ai_summary", objGet meta "AI Summary"),
    ("abstract", jsOrVal (objGet meta "AI Summary") (objGet meta "Snippet")) ]

/-- One output item (`server.js` lines 362-377): the object literal in
source order — `id`, `score`, the nine normalized aliases, then the raw
metadata spread `...m.metadata` (which, per JS object-literal semantics,
overwrites any earlier binding of the same key). -/
def buildItemObj (m : PineMatch) : JsObj :=
  ("id", JVal.str m.id) :: ("score", JVal.num m.score) ::
    (normalizedAliasFields m.metadata ++ m.metadata)

/-- The `/search` handler of the main variant (`server.js` lines 293-384)
with every collaborator reply injected: `400` on blank `q`, `500` via the
`catch` on a thrown provider error (`String(e)` renders as
`"Error: " + message`), `500` with detail on a non-2xx index reply, else
`200` with the mapped items (`(j.matches ?? []).map(...)`). -/
def searchHandler (cfg : AppConfig) (p : SearchParams) (now : Int) (dR : DenseResp)
    (sR : SparseResp) (pR : PineResp) : HttpResp :=
  if jsTrim (p.q.getD "") = "" then ⟨400, .err "Missing q"⟩
  else
    match searchPrep cfg p now dR sR with
    | .error e => ⟨500, .err ("Error: " ++ e)⟩
    | .ok _ =>
        if pR.ok then ⟨200, .items ((pR.matchesField.getD []).map buildItemObj)⟩
        else ⟨500, .errWithDetail "Pinecone Error" pR.detail⟩

/-- The result mapping of the earliest variant (`part_000` lines 107-111):
`(j.matches || []).map(m => ({ id, score, ...m.metadata }))`. -/
def items_v0 (pR : PineResp) : List JsObj :=
  (pR.matchesField.getD []).map
    (fun m => ("id", JVal.str m.id) :: ("score", JVal.num m.score) :: m.metadata)

/-- The tail of the `part_000` handler (lines 104-113): `500` with detail
on a non-2xx index reply, else `200` with the mapped items. -/
def respond_v0 (pR : PineResp) : HttpResp :=
  if pR.ok then ⟨200, .items (items_v0 pR)⟩
  else ⟨500, .errWithDetail "Pinecone" pR.detail⟩

/-! ### Helper lemmas: dropWhile and jsTrim -/

theorem dropWhile_idem (p : Char → Bool) (l : List Char) :
    (l.dropWhile p).dropWhile p = l.dropWhile p := by
  induction l with
  | nil => rfl
  | cons a t ih =>
      by_cases h : p a
      · simp [List.dropWhile_cons, h, ih]
      · simp [List.dropWhile_cons, h]

theorem dropWhile_head?_not (p : Char → Bool) (l : List Char) {a : Char}
    (h : (l.dropWhile p).head? = some a) : p a = false := by
  induction l with
  | nil => simp at h
  | cons b t ih =>
      by_cases hb : p b
      · rw [List.dropWhile_cons, if_pos hb] at h
        exact ih h
      · rw [List.dropWhile_cons, if_neg hb] at h
        simp at h
        rw [h] at hb
        simpa using hb

theorem dropWhile_getLast? (p : Char → Bool) (l : List Char)
    (h : l.dropWhile p ≠ []) : (l.dropWhile p).getLast? = l.getLast? := by
  induction l with
  | nil => simp at h
  | cons a t ih =>
      by_cases ha : p a
      · rw [List.dropWhile_cons, if_pos ha] at h ⊢
        have ht : t ≠ [] := by
          intro he
          rw [he] at h
          exact h rfl
        rw [ih h]
        cases t with
        | nil => exact absurd rfl ht
        | cons b u => rw [List.getLast?_cons_cons]
      · rw [List.dropWhile_cons, if_neg ha]

theorem dropWhile_eq_self_of_head? (p : Char → Bool) (l : List Char)
    (h : ∀ a, l.head? = some a → p a = false) : l.dropWhile p = l := by
  cases l with
  | nil => rfl
  | cons a t =>
      rw [List.dropWhile_cons, if_neg]
      rw [h a rfl]
      simp

theorem toList_mk (cs : List Char) : (String.mk cs).toList = cs := rfl

theorem jsTrim_idem (s : String) : jsTrim (jsTrim s) = jsTrim s := by
  unfold jsTrim
  rw [toList_mk]
  have h1 : (((s.toList.dropWhile Char.isWhitespace).reverse.dropWhile
      Char.isWhitespace).reverse).dropWhile Char.isWhitespace
      = ((s.toList.dropWhile Char.isWhitespace).reverse.dropWhile
          Char.isWhitespace).reverse := by
    apply dropWhile_eq_self_of_head?
    intro a ha
    rw [List.head?_reverse] at ha
    have hne : (s.toList.dropWhile Char.isWhitespace).reverse.dropWhile
        Char.isWhitespace ≠ [] := by
      intro he
      rw [he] at ha
      simp at ha
    rw [dropWhile_getLast? _ _ hne, List.getLast?_reverse] at ha
    exact dropWhile_head?_not _ _ ha
  rw [h1, List.reverse_reverse, dropWhile_idem]

/-! ### Helper lemmas: Set accumulation -/

theorem mem_insertDedup {acc : List String} {v x : String} :
    x ∈ insertDedup acc v ↔ x ∈ acc ∨ x = v := by
  unfold insertDedup
  by_cases h : v ∈ acc
  · rw [if_pos h]
    constructor
    · exact Or.inl
    · rintro (hx | rfl)
      · exact hx
      · exact h
  · rw [if_neg h]
    simp

theorem nodup_insertDedup {acc : List String} {v : String} (h : acc.Nodup) :
    (insertDedup acc v).Nodup := by
  unfold insertDedup
  by_cases hv : v ∈ acc
  · rwa [if_pos hv]
  · rw [if_neg hv, List.nodup_append]
    refine ⟨h, List.nodup_singleton v, ?_⟩
    intro a ha hav
    rw [List.mem_singleton] at hav
    rw [hav] at ha
    exact hv ha

theorem mem_addAll {vs acc : List String} {x : String} :
    x ∈ addAll acc vs ↔ x ∈ acc ∨ x ∈ vs := by
  induction vs generalizing acc with
  | nil => simp [addAll]
  | cons v vs ih =>
      show x ∈ addAll (insertDedup acc v) vs ↔ _
      rw [ih, mem_insertDedup]
      simp [List.mem_cons]
      tauto

theorem nodup_addAll {vs acc : List String} (h : acc.Nodup) : (addAll acc vs).Nodup := by
  induction vs generalizing acc with
  | nil => exact h
  | cons v vs ih => exact ih (nodup_insertDedup h)

theorem mem_foldLabels (f : String → List String) (l : List String) (acc : List String)
    (x : String) :
    x ∈ l.foldl (fun acc t => addAll acc (f t)) acc ↔ x ∈ acc ∨ ∃ t ∈ l, x ∈ f t := by
  induction l generalizing acc with
  | nil => simp
  | cons a l ih =>
      rw [List.foldl_cons, ih, mem_addAll]
      constructor
      · rintro ((hx | hx) | ⟨t, ht, hx⟩)
        · exact Or.inl hx
        · exact Or.inr ⟨a, List.mem_cons_self a l, hx⟩
        · exact Or.inr ⟨t, List.mem_cons_of_mem a ht, hx⟩
      · rintro (hx | ⟨t, ht, hx⟩)
        · exact Or.inl (Or.inl hx)
        · rcases List.mem_cons.mp ht with rfl | ht
          · exact Or.inl (Or.inr hx)
          · exact Or.inr ⟨t, ht, hx⟩

theorem foldLabels_nil (f : String → List String) (l : List String)
    (h : ∀ t ∈ l, f t = []) : l.foldl (fun acc t => addAll acc (f t)) [] = [] := by
  rw [List.eq_nil_iff_forall_not_mem]
  intro x hx
  rw [mem_foldLabels] at hx
  rcases hx with hx | ⟨t, ht, hx⟩
  · simp at hx
  · rw [h t ht] at hx
    simp at hx

/-! ### Helper lemmas: the date-range loop -/

theorem mem_multiDateRangeGo {e : Int} {x : String} {k : Nat} {acc : List String} :
    x ∈ multiDateRangeGo e k acc
      ↔ x ∈ acc ∨ ∃ i < k, x ∈ getMultiFormats (e - (i : Int) * DAY_MS) := by
  induction k generalizing acc with
  | zero => simp [multiDateRangeGo]
  | succ k ih =>
      rw [multiDateRangeGo, ih, mem_addAll]
      constructor
      · rintro ((hx | hx) | ⟨i, hi, hx⟩)
        · exact Or.inl hx
        · exact Or.inr ⟨k, Nat.lt_succ_self k, hx⟩
        · exact Or.inr ⟨i, Nat.lt_succ_of_lt hi, hx⟩
      · rintro (hx | ⟨i, hi, hx⟩)
        · exact Or.inl (Or.inl hx)
        · rcases Nat.lt_succ_iff_lt_or_eq.mp hi with hik | rfl
          · exact Or.inr ⟨i, hik, hx⟩
          · exact Or.inl (Or.inr hx)

theorem nodup_multiDateRangeGo {e : Int} {k : Nat} {acc : List String}
    (h : acc.Nodup) : (multiDateRangeGo e k acc).Nodup := by
  induction k generalizing acc with
  | zero => exact h
  | succ k ih => exact ih (nodup_addAll h)

theorem utcMidnight_eq (now : Int) : utcMidnight now = dayIndex now * DAY_MS := by
  unfold utcMidnight dayIndex DAY_MS
  omega

theorem dayIndex_shift (now : Int) (i : Nat) :
    dayIndex (utcMidnight now - (i : Int) * DAY_MS) = dayIndex now - i := by
  rw [utcMidnight_eq, ← Int.sub_mul]
  unfold dayIndex
  exact Int.mul_ediv_cancel _ (by norm_num [DAY_MS])

/-! ### Helper lemmas: JS object reads -/

theorem objGet_append (a b : JsObj) (k : String) :
    objGet (a ++ b) k = if k ∈ b.map Prod.fst then objGet b k else objGet a k := by
  unfold objGet
  rw [List.reverse_append, List.find?_append]
  rcases hfb : b.reverse.find? (fun p => p.1 = k) with _ | x
  · have hnotin : k ∉ b.map Prod.fst := by
      intro hk
      obtain ⟨x, hx, hxk⟩ := List.mem_map.mp hk
      have hex : ∃ y ∈ b.reverse, (fun p => decide (p.1 = k)) y = true :=
        ⟨x, List.mem_reverse.mpr hx, by simp [hxk]⟩
      have := List.find?_isSome.mpr hex
      rw [hfb] at this
      simp at this
    rw [if_neg hnotin, hfb]
    rfl
  · have hin : k ∈ b.map Prod.fst := by
      have hsome : (b.reverse.find? (fun p => p.1 = k)).isSome := by
        rw [hfb]; rfl
      obtain ⟨y, hy, hyk⟩ := List.find?_isSome.mp hsome
      exact List.mem_map.mpr ⟨y, List.mem_reverse.mp hy, by simpa using hyk⟩
    rw [if_pos hin, hfb]
    rfl

theorem objGet_cons_ne (a : String × JVal) (l : JsObj) (k : String) (h : a.1 ≠ k) :
    objGet (a :: l) k = objGet l k := by
  unfold objGet
  rw [show (a :: l).reverse = l.reverse ++ [a] from by simp, List.find?_append]
  have : [a].find? (fun p => p.1 = k) = none := by simp [List.find?, h]
  rw [this]
  simp

/-! ### Claim theorems -/

/-- C1 counterexample: the claim says a negative `topK` input yields the
default 10 and that no value below 1 is ever sent, but `topK=-5` parses to
`-5`, which is truthy, so the `|| 10` default does not apply and
`Math.min(-5, 100)` sends `-5`; moreover in the earliest variant a
non-numeric input propagates `NaN` through `Math.min`. -/
theorem topK_negative_counterexample :
    topK_main (some "-5") = -5 ∧ topK_main (some "-5") ≠ 10 ∧
      topK_main (some "-5") < 1 ∧ topK_v0 (some "abc") = none := by decide

/-- C1 (amended): `topK` is clamped from above to 100 in the main variant
(`topK=9999` yields 100), and an input parsing to `NaN` or to `0` yields
the default 10 there; but a parse to any other value `n` is sent as
`min n 100`, so a negative input passes through below 1. In the earliest
variant the ceiling is 50 and there is no `|| 10` fallback: a non-numeric
input propagates `NaN`, and `0` or a negative parse passes through. -/
theorem topK_clamp_amended (s : String) (n : Int)
    (h : jsParseInt s = some n) (hne : n ≠ 0) :
    topK_main (some "9999") = 100 ∧
    topK_main (some "0") = 10 ∧
    topK_main (some "abc") = 10 ∧
    topK_main none = 10 ∧
    topK_main (some s) = min n 100 ∧
    (n < 0 → topK_main (some s) = n ∧ topK_main (some s) < 1) ∧
    topK_v0 (some "9999") = some 50 ∧
    topK_v0 (some "abc") = none ∧
    topK_v0 (some "0") = some 0 ∧
    topK_v0 (some "-3") = some (-3) ∧
    topK_v0 none = some 10 := by
  have hmain : topK_main (some s) = min n 100 := by
    show min (jsNumOrTen (jsParseInt s)) 100 = min n 100
    rw [h]
    show min (if n = 0 then 10 else n) 100 = min n 100
    rw [if_neg hne]
  refine ⟨by decide, by decide, by decide, by decide, hmain, ?_, by decide, by decide,
    by decide, by decide, by decide⟩
  intro hneg
  rw [hmain]
  omega

/-- C1 witness: instantiating the amended clamp theorem at `topK="-5"`. -/
theorem topK_clamp_amended_witness : topK_main (some "-5") = min (-5) 100 :=
  (topK_clamp_amended "-5" (-5) (by decide) (by decide)).2.2.2.2.1

/-- C2 counterexample: the claim says `/healthz` always answers 200 and
never 401, but in the main variant `app.use(checkAuth)` is registered
before the `/healthz` route, so with a configured secret and a missing or
wrong `Authorization` header the reply is 401. -/
theorem healthz_unauthorized_counterexample :
    handleHealthz_main (some "secret-key") none = ⟨401, .err "Unauthorized"⟩ ∧
    (handleHealthz_main (some "secret-key") none).status ≠ 200 ∧
    handleHealthz_main (some "secret-key") (some "Bearer wrong")
        = ⟨401, .err "Unauthorized"⟩ := by decide

/-- C2 (amended): in the main and intermediate variants the `checkAuth`
middleware runs before the `/healthz` route, so `/healthz` answers 200
`{ok: true}` only to a request carrying the exact Bearer credential,
answers 401 to a missing or different header, and answers 500 when no
inbound credential is configured; only the earliest variant (which has no
auth middleware) serves `/healthz` unconditionally. -/
theorem healthz_auth_amended (secret : String) (authHeader : Option String)
    (hs : secret ≠ "") (hh : authHeader ≠ some ("Bearer " ++ secret)) :
    (handleHealthz_main (some secret) authHeader).status = 401 ∧
    handleHealthz_main (some secret) (some ("Bearer " ++ secret)) = ⟨200, .okTrue⟩ ∧
    (handleHealthz_main none authHeader).status = 500 ∧
    handleHealthz_v0 = ⟨200, .okTrue⟩ := by
  have hb : ("Bearer " ++ secret) ≠ "" := by
    intro he
    have h2 := congrArg String.length he
    rw [String.length_append] at h2
    have h3 : ("Bearer " : String).length = 7 := rfl
    have h4 : ("" : String).length = 0 := rfl
    omega
  refine ⟨?_, ?_, rfl, rfl⟩
  · simp [handleHealthz_main, checkAuth, jsFalsyStr, hs, hh]
  · simp [handleHealthz_main, checkAuth, jsFalsyStr, hs, hb]

/-- C2 witness: instantiating the amended auth theorem at a concrete
secret and a request with no header. -/
theorem healthz_auth_amended_witness :
    (handleHealthz_main (some "secret-key") none).status = 401 :=
  (healthz_auth_amended "secret-key" none (by decide) (by decide)).1

/-- C4: in closed-label mode, a `type` parameter trimming to exactly
`"Essays Only"` produces a `Type $in` predicate whose value set is exactly
the set of all arrangements of every subset of {Essay, Podcast, Video}
containing "Essay" joined with `", "` — eleven labels, none missing, none
extra. -/
theorem essaysOnly_permutation_set (p : Option String)
    (h : jsTrim (p.getD "") = "Essays Only") :
    closedTypeFilter p = some (.inSet essaysOnlyLabels) ∧
    essaysOnlyLabels.toFinset = specEssayPermutationLabels ∧
    essaysOnlyLabels.Nodup ∧
    essaysOnlyLabels.length = 11 := by
  refine ⟨?_, by decide, by decide, by decide⟩
  unfold closedTypeFilter
  rw [h]
  decide

/-- C4 witness: the closed-label filter at `type=" Essays Only "`. -/
theorem essaysOnly_permutation_set_witness :
    closedTypeFilter (some " Essays Only ") = some (.inSet essaysOnlyLabels) :=
  (essaysOnly_permutation_set (some " Essays Only ") (by decide)).1

/-- C5: in closed-label mode, a `type` parameter trimming to exactly
`"Podcasts/Videos Only"` produces exactly the predicate
`Type $nin {Essay, Essays}` (in particular no `$in` on `Type`), and an
item with the multi-type label `"Essay, Podcast"` passes that predicate —
it is not excluded. -/
theorem podcastsVideos_nin_predicate (p : Option String)
    (h : jsTrim (p.getD "") = "Podcasts/Videos Only") :
    closedTypeFilter p = some (.ninSet ["Essay", "Essays"]) ∧
    evalTypePred (.ninSet ["Essay", "Essays"]) "Essay, Podcast" = true ∧
    evalTypePred (.ninSet ["Essay", "Essays"]) "Essay" = false := by
  refine ⟨?_, by decide, by decide⟩
  unfold closedTypeFilter
  rw [h]
  decide

/-- C5 witness: the closed-label filter at `type="Podcasts/Videos Only"`. -/
theorem podcastsVideos_nin_predicate_witness :
    closedTypeFilter (some "Podcasts/Videos Only")
        = some (.ninSet ["Essay", "Essays"]) :=
  (podcastsVideos_nin_predicate (some "Podcasts/Videos Only") (by decide)).1

/-- C3: for `days=N` (N > 0) the enumerated window covers exactly the
N+1 UTC calendar days from today − N through today (today = the current
instant truncated to UTC midnight); the `$in` value list is exactly the
de-duplicated cross product of those days with the five supported literal
formats; in `$gte` mode the cutoff is the `YYYY-MM-DD` rendering of
`now − N` days; and a `days` value that is non-positive or unparseable
attaches no date predicate in either variant. -/
theorem dateWindow_days_correct (now : Int) (N : Nat) (hN : 0 < N)
    (s : Option String) (n : Int) :
    ((Finset.range (N + 1)).image (fun i : Nat => dayIndex (utcMidnight now - (i : Int) * DAY_MS))
        = Finset.Icc (dayIndex now - (N : Int)) (dayIndex now)) ∧
    (Finset.Icc (dayIndex now - (N : Int)) (dayIndex now)).card = N + 1 ∧
    ((getMultiDateRange now N).toFinset
        = (Finset.range (N + 1)).biUnion
            (fun i => (getMultiFormats (utcMidnight now - (i : Int) * DAY_MS)).toFinset)) ∧
    (getMultiDateRange now N).Nodup ∧
    (jsParseInt (s.getD "") = none → dateFilter_main now s = none) ∧
    (jsParseInt (jsOrStr s "") = none → cutoffYMD_v0 now s = none) ∧
    (jsParseInt (s.getD "") = some n → n ≤ 0 → dateFilter_main now s = none) ∧
    (jsParseInt (jsOrStr s "") = some n → n ≤ 0 → cutoffYMD_v0 now s = none) ∧
    (jsParseInt (s.getD "") = some n → 0 < n →
        dateFilter_main now s = some (getMultiDateRange now n.toNat)) ∧
    (jsParseInt (jsOrStr s "") = some n → 0 < n →
        cutoffYMD_v0 now s = some (ymd (now - n * DAY_MS))) := by
  refine ⟨?_, ?_, ?_, ?_, ?_, ?_, ?_, ?_, ?_, ?_⟩
  · ext x
    simp only [Finset.mem_image, Finset.mem_range, Finset.mem_Icc]
    constructor
    · rintro ⟨i, hi, rfl⟩
      rw [dayIndex_shift]
      omega
    · rintro ⟨h1, h2⟩
      refine ⟨(dayIndex now - x).toNat, by omega, ?_⟩
      rw [dayIndex_shift]
      omega
  · rw [Int.card_Icc]
    omega
  · ext x
    simp only [List.mem_toFinset, Finset.mem_biUnion, Finset.mem_range, getMultiDateRange,
      mem_multiDateRangeGo, List.not_mem_nil, false_or]
  · exact nodup_multiDateRangeGo List.nodup_nil
  · intro h
    simp [dateFilter_main, h]
  · intro h
    simp [cutoffYMD_v0, daysOf_v0, h]
  · intro h hle
    simp [dateFilter_main, h, show ¬(0 < n) from by omega]
  · intro h hle
    simp [cutoffYMD_v0, daysOf_v0, h, show ¬(0 < n) from by omega]
  · intro h hpos
    simp [dateFilter_main, h, hpos]
  · intro h hpos
    simp [cutoffYMD_v0, daysOf_v0, h, hpos]

/-- C3 witness: the three-day window around 2025-10-12 with `days=2`. -/
theorem dateWindow_days_correct_witness :
    (Finset.range (2 + 1)).image
        (fun i : Nat => dayIndex (utcMidnight 1760227200123 - (i : Int) * DAY_MS))
      = Finset.Icc (dayIndex 1760227200123 - (2 : Int)) (dayIndex 1760227200123) :=
  (dateWindow_days_correct 1760227200123 2 (by decide) (some "2") 2).1

/-! ### Helper lemmas: token-mode labels -/

theorem combo_mem_labels_v0 (t : String) :
    "Podcast, Video" ∈ labelsOfToken_v0 t ↔ t = "podcast" ∨ t = "video" := by
  unfold labelsOfToken_v0
  split_ifs with h1 h2 h3
  · subst h1; decide
  · subst h2; decide
  · subst h3; decide
  · simp [h2, h3]

theorem labels_nonnil_recognized_v0 {t x : String}
    (hx : x ∈ labelsOfToken_v0 t) : recognized_v0 t = true := by
  unfold labelsOfToken_v0 at hx
  split_ifs at hx with h1 h2 h3
  · subst h1; decide
  · subst h2; decide
  · subst h3; decide
  · simp at hx

theorem combo_mem_labels_v1 (t : String) :
    "Podcast, Video" ∈ labelsOfToken_v1 t ↔ comboToken_v1 t = true := by
  unfold labelsOfToken_v1
  split_ifs with h1 h2 h3
  · rcases h1 with rfl | rfl <;> decide
  · rcases h2 with rfl | rfl <;> decide
  · rcases h3 with rfl | rfl <;> decide
  · constructor
    · intro hx
      simp at hx
    · intro hc
      exfalso
      unfold comboToken_v1 at hc
      simp at hc
      rcases hc with h | h | h | h
      · exact h2 (Or.inl h)
      · exact h2 (Or.inr h)
      · exact h3 (Or.inl h)
      · exact h3 (Or.inr h)

theorem labels_nonnil_recognized_v1 {t x : String}
    (hx : x ∈ labelsOfToken_v1 t) : recognized_v1 t = true := by
  unfold labelsOfToken_v1 at hx
  split_ifs at hx with h1 h2 h3
  · rcases h1 with rfl | rfl <;> decide
  · rcases h2 with rfl | rfl <;> decide
  · rcases h3 with rfl | rfl <;> decide
  · simp at hx

/-- C6: in token mode, `essay` contributes exactly {Essay}, `podcast`
contributes {Podcast, "Podcast, Video"}, `video` contributes
{Video, "Podcast, Video"}; the combo label is in the allowed set exactly
when a podcast or video token is present (so never when `essay` is the
only recognized token); an `all` token or the absence of any recognized
token attaches no content-type predicate; otherwise the predicate is `$in`
over the accumulated union, on `final_type` in the earliest variant and on
`Type` in the intermediate variant. -/
theorem tokenMode_type_labels (p : Option String) (x : String) :
    labelsOfToken_v0 "essay" = ["Essay"] ∧
    labelsOfToken_v0 "podcast" = ["Podcast", "Podcast, Video"] ∧
    labelsOfToken_v0 "video" = ["Video", "Podcast, Video"] ∧
    ("Podcast, Video" ∈ allowedTypeLabels_v0 p
        ↔ "podcast" ∈ effTokens_v0 p ∨ "video" ∈ effTokens_v0 p) ∧
    (x ∈ allowedTypeLabels_v0 p
        ↔ (effTokens_v0 p).any (fun t => decide (x ∈ labelsOfToken_v0 t)) = true) ∧
    ("all" ∈ typeTokens_v0 p → finalTypeFilter_v0 p = none) ∧
    ((typeTokens_v0 p).filter recognized_v0 = [] → finalTypeFilter_v0 p = none) ∧
    (allowedTypeLabels_v0 p ≠ [] →
        finalTypeFilter_v0 p = some ("final_type", allowedTypeLabels_v0 p)) ∧
    ("Podcast, Video" ∈ allowedTypeLabels_v1 p
        ↔ (typeTokens_v1 p).any comboToken_v1 = true) ∧
    ("all" ∈ typeTokens_v1 p → typeFilter_v1 p = none) ∧
    ((typeTokens_v1 p).filter recognized_v1 = [] → typeFilter_v1 p = none) ∧
    ("all" ∉ typeTokens_v1 p → allowedTypeLabels_v1 p ≠ [] →
        typeFilter_v1 p = some ("Type", allowedTypeLabels_v1 p)) := by
  refine ⟨by decide, by decide, by decide, ?_, ?_, ?_, ?_, ?_, ?_, ?_, ?_, ?_⟩
  · unfold allowedTypeLabels_v0
    rw [mem_foldLabels]
    simp only [List.not_mem_nil, false_or]
    constructor
    · rintro ⟨t, ht, hx⟩
      rcases (combo_mem_labels_v0 t).mp hx with rfl | rfl
      · exact Or.inl ht
      · exact Or.inr ht
    · rintro (h | h)
      · exact ⟨_, h, by decide⟩
      · exact ⟨_, h, by decide⟩
  · unfold allowedTypeLabels_v0
    rw [mem_foldLabels, List.any_eq_true]
    simp
  · intro h
    have heff : effTokens_v0 p = [] := by
      unfold effTokens_v0
      rw [if_pos h]
    have hlab : allowedTypeLabels_v0 p = [] := by
      unfold allowedTypeLabels_v0
      rw [heff]
      rfl
    unfold finalTypeFilter_v0
    rw [hlab]
    rfl
  · intro hfilt
    have hall : ∀ t ∈ typeTokens_v0 p, labelsOfToken_v0 t = [] := by
      intro t ht
      by_contra hne
      obtain ⟨y, hy⟩ := List.exists_mem_of_ne_nil _ hne
      have hrec := labels_nonnil_recognized_v0 hy
      have : t ∈ (typeTokens_v0 p).filter recognized_v0 := List.mem_filter.mpr ⟨ht, hrec⟩
      rw [hfilt] at this
      simp at this
    have hlab : allowedTypeLabels_v0 p = [] := by
      unfold allowedTypeLabels_v0 effTokens_v0
      by_cases hac : "all" ∈ typeTokens_v0 p
      · rw [if_pos hac]
        rfl
      · rw [if_neg hac]
        exact foldLabels_nil _ _ hall
    unfold finalTypeFilter_v0
    rw [hlab]
    rfl
  · intro hne
    unfold finalTypeFilter_v0
    rw [if_neg (by simp [List.isEmpty_iff, hne])]
  · unfold allowedTypeLabels_v1
    rw [mem_foldLabels, List.any_eq_true]
    simp only [List.not_mem_nil, false_or]
    constructor
    · rintro ⟨t, ht, hx⟩
      exact ⟨t, ht, (combo_mem_labels_v1 t).mp hx⟩
    · rintro ⟨t, ht, hc⟩
      exact ⟨t, ht, (combo_mem_labels_v1 t).mpr hc⟩
  · intro h
    unfold typeFilter_v1
    rw [if_neg]
    intro hc
    exact hc.2 h
  · intro hfilt
    unfold typeFilter_v1
    by_cases hcond : ¬(typeTokens_v1 p).isEmpty ∧ "all" ∉ typeTokens_v1 p
    · rw [if_pos hcond]
      have hall : ∀ t ∈ typeTokens_v1 p, labelsOfToken_v1 t = [] := by
        intro t ht
        by_contra hne
        obtain ⟨y, hy⟩ := List.exists_mem_of_ne_nil _ hne
        have hrec := labels_nonnil_recognized_v1 hy
        have : t ∈ (typeTokens_v1 p).filter recognized_v1 := List.mem_filter.mpr ⟨ht, hrec⟩
        rw [hfilt] at this
        simp at this
      have hlab : allowedTypeLabels_v1 p = [] := foldLabels_nil _ _ hall
      rw [if_pos (by simp [List.isEmpty_iff, hlab])]
    · rw [if_neg hcond]
  · intro hnall hne
    have htok : typeTokens_v1 p ≠ [] := by
      intro he
      apply hne
      unfold allowedTypeLabels_v1
      rw [he]
      rfl
    unfold typeFilter_v1
    rw [if_pos ⟨by simp [List.isEmpty_iff, htok], hnall⟩,
      if_neg (by simp [List.isEmpty_iff, hne])]

/-- C6 witness: the combo-label characterisation at `type="podcast"`. -/
theorem tokenMode_type_labels_witness :
    "Podcast, Video" ∈ allowedTypeLabels_v0 (some "podcast")
      ↔ "podcast" ∈ effTokens_v0 (some "podcast")
          ∨ "video" ∈ effTokens_v0 (some "podcast") :=
  (tokenMode_type_labels (some "podcast") "Podcast, Video").2.2.2.1

/-! ### Helper lemmas: the search pipeline -/

theorem searchPrep_hybrid (cfg : AppConfig) (p : SearchParams) (now : Int)
    (dR : DenseResp) (sR : SparseResp) (hd : dR.ok = true)
    (hH : cfg.enableHybrid = "true") (hE : jsTrim (p.exact.getD "") ≠ "")
    (hs : sR.ok = true) :
    searchPrep cfg p now dR sR
      = .ok (buildQueryBody cfg (alphaOf p) (topK_main p.topKParam) dR.embedding
          (some sR.sparse_values)
          ⟨closedTypeFilter p.typeParam, dateFilter_main now p.daysParam⟩) := by
  simp [searchPrep, getDenseEmbedding, sparseStep, getSparseEmbedding, hd, hH, hE, hs,
    jsTrim_idem]

theorem searchPrep_dense_only (cfg : AppConfig) (p : SearchParams) (now : Int)
    (dR : DenseResp) (sR : SparseResp) (hd : dR.ok = true)
    (hno : ¬(cfg.enableHybrid = "true" ∧ jsTrim (p.exact.getD "") ≠ "")) :
    searchPrep cfg p now dR sR
      = .ok (buildQueryBody cfg (alphaOf p) (topK_main p.topKParam) dR.embedding none
          ⟨closedTypeFilter p.typeParam, dateFilter_main now p.daysParam⟩) := by
  simp [searchPrep, getDenseEmbedding, sparseStep, hd, hno]

theorem searchPrep_sparse_fail (cfg : AppConfig) (p : SearchParams) (now : Int)
    (dR : DenseResp) (sR : SparseResp) (hd : dR.ok = true)
    (hH : cfg.enableHybrid = "true") (hE : jsTrim (p.exact.getD "") ≠ "")
    (hs : sR.ok = false) :
    searchPrep cfg p now dR sR
      = .error ("Pinecone Sparse Error: " ++ toString sR.status) := by
  simp [searchPrep, getDenseEmbedding, sparseStep, getSparseEmbedding, hd, hH, hE, hs,
    jsTrim_idem]

theorem objGet_buildItem (m : PineMatch) (k : String)
    (hid : k ≠ "id") (hsc : k ≠ "score") :
    objGet (buildItemObj m) k
      = if k ∈ m.metadata.map Prod.fst then objGet m.metadata k
        else objGet (normalizedAliasFields m.metadata) k := by
  unfold buildItemObj
  rw [objGet_cons_ne _ _ _ (Ne.symm hid), objGet_cons_ne _ _ _ (Ne.symm hsc),
    objGet_append]

/-- C7: a sparse-embedding call is made exactly when the hybrid toggle
equals "true" and the trimmed `exact` parameter is non-empty; with a
sparse vector present the payload's dense vector is the component-wise
product of the embedding with `alpha` (default 0.8) and the sparse vector
is attached unscaled; without one the dense vector is sent unscaled and no
sparse field exists — the payload then does not depend on the sparse
provider at all. -/
theorem hybrid_payload_correct (cfg : AppConfig) (p : SearchParams) (now : Int)
    (dR : DenseResp) (sR sR2 : SparseResp)
    (hq : jsTrim (p.q.getD "") ≠ "") (hd : dR.ok = true) (hs : sR.ok = true) :
    (cfg.enableHybrid = "true" ∧ jsTrim (p.exact.getD "") ≠ "" →
      (searchQuerySent cfg p now dR sR).map QueryBody.vector
          = some (dR.embedding.map (fun v => v * alphaOf p)) ∧
      (searchQuerySent cfg p now dR sR).map QueryBody.sparse_vector
          = some (some sR.sparse_values)) ∧
    (¬(cfg.enableHybrid = "true" ∧ jsTrim (p.exact.getD "") ≠ "") →
      (searchQuerySent cfg p now dR sR).map QueryBody.vector = some dR.embedding ∧
      (searchQuerySent cfg p now dR sR).map QueryBody.sparse_vector = some none ∧
      searchQuerySent cfg p now dR sR2 = searchQuerySent cfg p now dR sR) ∧
    (p.alpha = none → alphaOf p = 4 / 5) := by
  refine ⟨?_, ?_, ?_⟩
  · rintro ⟨hH, hE⟩
    simp only [searchQuerySent]
    rw [if_neg hq, searchPrep_hybrid cfg p now dR sR hd hH hE hs]
    exact ⟨rfl, rfl⟩
  · intro hno
    simp only [searchQuerySent, if_neg hq]
    rw [searchPrep_dense_only cfg p now dR sR hd hno,
      searchPrep_dense_only cfg p now dR sR2 hd hno]
    exact ⟨rfl, rfl, rfl⟩
  · intro h
    simp [alphaOf, h]

/-- C7 witness: with the toggle off, the payload carries the unscaled
dense vector. -/
theorem hybrid_payload_correct_witness :
    (searchQuerySent ⟨"false", ""⟩ ⟨some "hi", none, none, none, none, none⟩ 0
        ⟨true, 200, [1, 2]⟩ ⟨true, 200, [(3, 7)]⟩).map QueryBody.vector
      = some [1, 2] :=
  ((hybrid_payload_correct ⟨"false", ""⟩ ⟨some "hi", none, none, none, none, none⟩ 0
      ⟨true, 200, [1, 2]⟩ ⟨true, 200, [(3, 7)]⟩ ⟨true, 200, [(3, 7)]⟩
      (by decide) rfl rfl).2.1 (by decide)).1

/-- C9: when a sparse-embedding call is attempted (toggle on, `exact`
non-empty, `q` valid, dense embedding succeeded) and the sparse provider
replies non-success, the whole request fails with 500 via the thrown
error — no items are returned, no index query is sent, and the response
does not depend on the index provider at all (no dense-only fallback). -/
theorem sparseFailure_fails_request (cfg : AppConfig) (p : SearchParams) (now : Int)
    (dR : DenseResp) (sR : SparseResp) (pR pR2 : PineResp)
    (hq : jsTrim (p.q.getD "") ≠ "") (hd : dR.ok = true)
    (hH : cfg.enableHybrid = "true") (hE : jsTrim (p.exact.getD "") ≠ "")
    (hs : sR.ok = false) :
    searchHandler cfg p now dR sR pR
        = ⟨500, .err ("Error: " ++ ("Pinecone Sparse Error: " ++ toString sR.status))⟩ ∧
    searchHandler cfg p now dR sR pR = searchHandler cfg p now dR sR pR2 ∧
    searchQuerySent cfg p now dR sR = none := by
  have hprep := searchPrep_sparse_fail cfg p now dR sR hd hH hE hs
  refine ⟨?_, ?_, ?_⟩
  · simp only [searchHandler]
    rw [if_neg hq, hprep]
  · simp only [searchHandler]
    rw [if_neg hq, if_neg hq, hprep]
  · simp only [searchQuerySent]
    rw [if_neg hq, hprep]
    rfl

/-- C9 witness: a failing sparse provider at concrete inputs yields the
500 error response. -/
theorem sparseFailure_fails_request_witness :
    searchHandler ⟨"true", ""⟩ ⟨some "hi", none, some "x", none, none, none⟩ 0
        ⟨true, 200, [1]⟩ ⟨false, 503, []⟩ ⟨true, none, ""⟩
      = ⟨500, .err ("Error: " ++ ("Pinecone Sparse Error: " ++ toString 503))⟩ :=
  (sparseFailure_fails_request ⟨"true", ""⟩ ⟨some "hi", none, some "x", none, none, none⟩ 0
      ⟨true, 200, [1]⟩ ⟨false, 503, []⟩ ⟨true, none, ""⟩ ⟨true, none, ""⟩
      (by decide) rfl rfl (by decide) rfl).1

/-- C10: an index reply that is successful but has no `matches` field, or
an empty one, produces a 200 response with an empty JSON array in the main
variant, and likewise in the earliest variant — the access to the absent
field is total (`?? []` / `|| []`). -/
theorem emptyMatches_yields_empty_array (cfg : AppConfig) (p : SearchParams) (now : Int)
    (dR : DenseResp) (sR : SparseResp) (pR : PineResp)
    (hq : jsTrim (p.q.getD "") ≠ "") (hd : dR.ok = true) (hs : sR.ok = true)
    (hok : pR.ok = true) (hm : pR.matchesField = none ∨ pR.matchesField = some []) :
    searchHandler cfg p now dR sR pR = ⟨200, .items []⟩ ∧
    respond_v0 pR = ⟨200, .items []⟩ := by
  have hitems : pR.matchesField.getD [] = [] := by
    rcases hm with h | h <;> rw [h] <;> rfl
  constructor
  · simp only [searchHandler]
    rw [if_neg hq]
    by_cases hcond : cfg.enableHybrid = "true" ∧ jsTrim (p.exact.getD "") ≠ ""
    · rw [searchPrep_hybrid cfg p now dR sR hd hcond.1 hcond.2 hs, if_pos hok, hitems]
      rfl
    · rw [searchPrep_dense_only cfg p now dR sR hd hcond, if_pos hok, hitems]
      rfl
  · simp only [respond_v0, items_v0]
    rw [if_pos hok, hitems]
    rfl

/-- C10 witness: a successful index reply lacking the `matches` field. -/
theorem emptyMatches_yields_empty_array_witness :
    searchHandler ⟨"false", ""⟩ ⟨some "hi", none, none, none, none, none⟩ 0
        ⟨true, 200, [1]⟩ ⟨true, 200, []⟩ ⟨true, none, ""⟩
      = ⟨200, .items []⟩ :=
  (emptyMatches_yields_empty_array ⟨"false", ""⟩ ⟨some "hi", none, none, none, none, none⟩ 0
      ⟨true, 200, [1]⟩ ⟨true, 200, []⟩ ⟨true, none, ""⟩
      (by decide) rfl rfl rfl (Or.inl rfl)).1

/-- The example metadata object with a lowercase key colliding with a
normalized alias name. -/
def collidingMeta : List (String × JVal) :=
  [("Title", JVal.str "Capitalized Title"), ("title", JVal.str "raw collision")]

/-- C8 counterexample: the claim says a raw metadata key colliding with a
normalized field name leaves the alias value computed from the capitalized
fields in place, but the raw spread `...m.metadata` comes AFTER the
aliases in the object literal, and in JS a later binding wins: with raw
keys `Title` and `title`, the output `title` is the raw `title` value,
not the alias computed from `Title`. -/
theorem itemMapping_overwrite_counterexample :
    objGet (buildItemObj ⟨"id1", 1, collidingMeta⟩) "title" = .str "raw collision" ∧
    objGet (buildItemObj ⟨"id1", 1, collidingMeta⟩) "title" ≠ .str "Capitalized Title" ∧
    objGet collidingMeta "Title" = .str "Capitalized Title" := by decide

/-- C8 (amended): the normalized aliases are computed from the capitalized
raw fields, but the raw metadata spread is applied after them, so for any
raw key colliding with a normalized field name the output carries the raw
value, overwriting the alias; an alias survives exactly when its name is
absent from the raw metadata keys. -/
theorem itemMapping_rawSpread_amended (m : PineMatch) (k : String)
    (hk : k ∈ ["title", "author", "url", "publication", "type", "date", "snippet",
      "ai_summary", "abstract"]) :
    (k ∈ m.metadata.map Prod.fst → objGet (buildItemObj m) k = objGet m.metadata k) ∧
    (k ∉ m.metadata.map Prod.fst →
        objGet (buildItemObj m) k = objGet (normalizedAliasFields m.metadata) k) := by
  simp only [List.mem_cons, List.not_mem_nil, or_false] at hk
  rcases hk with rfl | rfl | rfl | rfl | rfl | rfl | rfl | rfl | rfl <;>
    exact ⟨fun hmem => by rw [objGet_buildItem m _ (by decide) (by decide), if_pos hmem],
      fun hnot => by rw [objGet_buildItem m _ (by decide) (by decide), if_neg hnot]⟩

/-- C8 witness: on the colliding metadata the raw value wins for `title`. -/
theorem itemMapping_rawSpread_amended_witness :
    objGet (buildItemObj ⟨"id1", 1, collidingMeta⟩) "title"
      = objGet collidingMeta "title" :=
  (itemMapping_rawSpread_amended ⟨"id1", 1, collidingMeta⟩ "title" (by decide)).1
    (by decide)
